import Mathlib

/-!
Shallow embedding of the MetalSplatter fragment-processing core
(`src/MetalSplatter/Resources/ShaderCommon.h` and
`src/MetalSplatter/Resources/SplatProcessing.h`).

Metal `half`/`float` values are modelled as real numbers (exact arithmetic),
`uint` words and indices as `ℕ`, and `int` values as `ℤ`.  Buffers are
modelled as functions from indices.  `discard_fragment()` is modelled by an
`Option` result (`none` = discarded).
-/

namespace MetalSplatter

/-! ### Constants (ShaderCommon.h) -/

-- constant static const half kBoundsRadius = 3;
def kBoundsRadius : ℝ := 3

-- constant static const half kBoundsRadiusSquared = kBoundsRadius*kBoundsRadius;
def kBoundsRadiusSquared : ℝ := kBoundsRadius * kBoundsRadius

/-- Metal `half4` (used for colors and shaded fragment output). -/
structure Half4 where
  r : ℝ
  g : ℝ
  b : ℝ
  a : ℝ

/-- Metal `half3` (used for rgb triples). -/
structure Half3 where
  r : ℝ
  g : ℝ
  b : ℝ

/-- The `Splat` record of ShaderCommon.h (position, color, covA, covB). -/
structure Splat where
  position : ℝ × ℝ × ℝ
  color : Half4
  covA : ℝ × ℝ × ℝ
  covB : ℝ × ℝ × ℝ

/-- The `PackedColor` record: one 32-bit word (snorm10a2). -/
structure PackedColor where
  packedColor : ℕ

/-! ### Packed color decoding (ShaderCommon.h, `unpackSnorm10a2ToHalf`) -/

/-- Embedding of `unpackSnorm10a2ToHalf`:
extract 10-bit fields for R, G, B at bit offsets 0, 10, 20 and the 2-bit A
field at offset 30; a 10-bit field `>= 512` is treated as negative
(two's complement), and each field is divided by 511 (alpha by 3). -/
noncomputable def unpackSnorm10a2ToHalf (packed : ℕ) : Half4 :=
  let r : ℤ := (packed &&& 0x3FF : ℕ)
  let g : ℤ := ((packed >>> 10) &&& 0x3FF : ℕ)
  let b : ℤ := ((packed >>> 20) &&& 0x3FF : ℕ)
  let a : ℤ := ((packed >>> 30) &&& 0x3 : ℕ)
  let rf : ℝ := if 512 ≤ r then ((r : ℝ) - 1024) / 511 else (r : ℝ) / 511
  let gf : ℝ := if 512 ≤ g then ((g : ℝ) - 1024) / 511 else (g : ℝ) / 511
  let bf : ℝ := if 512 ≤ b then ((b : ℝ) - 1024) / 511 else (b : ℝ) / 511
  let af : ℝ := (a : ℝ) / 3
  ⟨rf, gf, bf, af⟩

/-- Embedding of `getSplatColor`.  The Metal function constants
`usePackedColors` and `hasPackedColorsBuffer` are passed as parameters;
the splat and packed-color buffers are functions from indices. -/
noncomputable def getSplatColor (usePackedColors hasPackedColorsBuffer : Bool)
    (splatIndex : ℕ) (splats : ℕ → Splat) (packedColors : ℕ → PackedColor) : Half4 :=
  if usePackedColors && hasPackedColorsBuffer then
    unpackSnorm10a2ToHalf (packedColors splatIndex).packedColor
  else
    (splats splatIndex).color

/-! ### Packed color encoding

The encoder lives on the CPU side of the repository and is not among the
shader sources; it is modelled from the spec. -/

/-- Modelled from the spec: the CPU-side encoder of one signed 10-bit
channel of the PackedColor word (scale divisor 511, two's complement),
which is not among the shader sources.  A channel value in [-1, 1] is
scaled by 511, rounded to the nearest integer, and the (possibly negative)
code is stored as a 10-bit two's-complement field. -/
noncomputable def packSnorm10 (c : ℝ) : ℕ :=
  let n : ℤ := ⌊c * 511 + 1 / 2⌋
  (if n < 0 then n + 1024 else n).toNat

/-- Modelled from the spec: the CPU-side encoder of the unsigned 2-bit
alpha field of the PackedColor word (scale divisor 3), which is not among
the shader sources.  An alpha in [0, 1] is scaled by 3 and rounded to the
nearest code in 0..3. -/
noncomputable def packUnorm2 (a : ℝ) : ℕ :=
  (⌊a * 3 + 1 / 2⌋).toNat

/-- Modelled from the spec: assembly of the 32-bit PackedColor word,
bits [0:10) = R, [10:20) = G, [20:30) = B, [30:32) = A. -/
noncomputable def packSnorm10a2 (c : Half4) : ℕ :=
  packSnorm10 c.r + 2 ^ 10 * packSnorm10 c.g + 2 ^ 20 * packSnorm10 c.b +
    2 ^ 30 * packUnorm2 c.a

/-! ### Fragment input and debug flags (ShaderCommon.h / SplatProcessing.h) -/

/-- The `FragmentIn` record (the clip-space `position` field is not used by
the fragment shading functions and is omitted; `lodBand` is a `half`
holding an integral band value, modelled as `ℤ`; `splatID` is the splat id
read by the dithered shader). -/
structure FragmentIn where
  relativePosition : ℝ × ℝ
  color : Half4
  lodBand : ℤ
  debugFlags : ℕ
  splatID : ℕ

-- constant uint DebugFlagOverdraw = 1u;
def DebugFlagOverdraw : ℕ := 1

-- constant uint DebugFlagLodTint = 2u;
def DebugFlagLodTint : ℕ := 2

/-! ### Fragment shading (SplatProcessing.h) -/

/-- Embedding of `splatFragmentAlpha`: zero outside the bounds radius,
otherwise `exp(0.5 * negativeMagnitudeSquared) * splatAlpha`. -/
noncomputable def splatFragmentAlpha (relativePosition : ℝ × ℝ) (splatAlpha : ℝ) : ℝ :=
  let negativeMagnitudeSquared : ℝ :=
    -(relativePosition.1 * relativePosition.1 + relativePosition.2 * relativePosition.2)
  if negativeMagnitudeSquared < -kBoundsRadiusSquared then 0
  else Real.exp (0.5 * negativeMagnitudeSquared) * splatAlpha

/-- Embedding of `lodTintForBand` (`switch (int(band))`). -/
noncomputable def lodTintForBand (band : ℤ) : Half3 :=
  if band = 0 then ⟨0.4, 1.0, 0.6⟩        -- near
  else if band = 1 then ⟨1.0, 0.85, 0.4⟩  -- mid
  else if band = 2 then ⟨1.0, 0.45, 0.35⟩ -- far
  else ⟨0.6, 0.7, 1.0⟩                    -- very far

/-- The debug-overlay block that `shadeSplat` and `shadeSplatDithered`
both contain verbatim: LOD tint replaces rgb by a palette color, then the
overdraw overlay replaces rgb by the grayscale
`clamp(alpha + 0.05, 0.05, 1)` (Metal `clamp(x, lo, hi)` is
`min (max x lo) hi`). -/
noncomputable def applyDebugOverlays (debugFlags : ℕ) (lodBand : ℤ)
    (rgb : Half3) (alpha : ℝ) : Half3 :=
  let rgb := if debugFlags &&& DebugFlagLodTint ≠ 0 then lodTintForBand lodBand else rgb
  if debugFlags &&& DebugFlagOverdraw ≠ 0 then
    let intensity : ℝ := min (max (alpha + 0.05) 0.05) 1
    ⟨intensity, intensity, intensity⟩
  else rgb

/-- Embedding of `shadeSplat` (continuous mode): premultiplied output
`(alpha * rgb, alpha)`. -/
noncomputable def shadeSplat (inp : FragmentIn) : Half4 :=
  let alpha := splatFragmentAlpha inp.relativePosition inp.color.a
  let rgb := applyDebugOverlays inp.debugFlags inp.lodBand
    ⟨inp.color.r, inp.color.g, inp.color.b⟩ alpha
  ⟨alpha * rgb.r, alpha * rgb.g, alpha * rgb.b, alpha⟩

/-- The 8x8 Bayer matrix constant of SplatProcessing.h. -/
noncomputable def bayerMatrix : List ℝ :=
  [ 0/64, 32/64,  8/64, 40/64,  2/64, 34/64, 10/64, 42/64,
   48/64, 16/64, 56/64, 24/64, 50/64, 18/64, 58/64, 26/64,
   12/64, 44/64,  4/64, 36/64, 14/64, 46/64,  6/64, 38/64,
   60/64, 28/64, 52/64, 20/64, 62/64, 30/64, 54/64, 22/64,
    3/64, 35/64, 11/64, 43/64,  1/64, 33/64,  9/64, 41/64,
   51/64, 19/64, 59/64, 27/64, 49/64, 17/64, 57/64, 25/64,
   15/64, 47/64,  7/64, 39/64, 13/64, 45/64,  5/64, 37/64,
   63/64, 31/64, 55/64, 23/64, 61/64, 29/64, 53/64, 21/64]

/-- Embedding of `bayerDither`: `int2(floor(screenPos)) & 7` (two's
complement bitwise and, `Int.land`), Bayer matrix lookup at
`pos.y * 8 + pos.x`, temporal offset `fract(splatID * 0.013) * 0.1`, and a
final wrap into [0, 1) by `fract`. -/
noncomputable def bayerDither (screenPos : ℝ × ℝ) (splatID : ℕ) : ℝ :=
  let px : ℤ := Int.land ⌊screenPos.1⌋ 7
  let py : ℤ := Int.land ⌊screenPos.2⌋ 7
  let threshold := bayerMatrix.getD (py * 8 + px).toNat 0
  let threshold := threshold + Int.fract ((splatID : ℝ) * 0.013) * 0.1
  Int.fract threshold

/-- Embedding of `shadeSplatDithered`: the same alpha and overlay block as
`shadeSplat`, then a stochastic alpha test `alpha < threshold` that
discards (`none`), and otherwise an opaque output `(rgb, 1)`. -/
noncomputable def shadeSplatDithered (inp : FragmentIn) (screenPos : ℝ × ℝ) :
    Option Half4 :=
  let alpha := splatFragmentAlpha inp.relativePosition inp.color.a
  let rgb := applyDebugOverlays inp.debugFlags inp.lodBand
    ⟨inp.color.r, inp.color.g, inp.color.b⟩ alpha
  let threshold := bayerDither screenPos inp.splatID
  if alpha < threshold then none
  else some ⟨rgb.r, rgb.g, rgb.b, 1⟩

/-! ### Helper lemmas -/

/-- Low three bits of the complement: `Nat.ldiff 7 m = 7 - m % 8`. -/
theorem ldiff_seven (m : ℕ) : Nat.ldiff 7 m = 7 - m % 8 := by
  apply Nat.eq_of_testBit_eq
  intro i
  rcases Nat.lt_or_ge i 3 with hi | hi
  · rw [Nat.testBit_ldiff]
    have h8 : m % 8 < 8 := Nat.mod_lt _ (by norm_num)
    have hm : Nat.testBit m i = Nat.testBit (m % 8) i := by
      have h : m % 8 = m % 2 ^ 3 := by norm_num
      rw [h, Nat.testBit_mod_two_pow]
      simp [hi]
    rw [hm]
    set r := m % 8 with hr
    interval_cases r <;> interval_cases i <;> decide
  · have h7 : Nat.testBit 7 i = false := Nat.testBit_lt_two_pow (by
      calc (7 : ℕ) < 2 ^ 3 := by norm_num
      _ ≤ 2 ^ i := Nat.pow_le_pow_right (by norm_num) hi)
    rw [Nat.testBit_ldiff, h7]
    have h8 : 7 - m % 8 < 2 ^ i := by
      have h : 7 - m % 8 < 2 ^ 3 := by omega
      exact lt_of_lt_of_le h (Nat.pow_le_pow_right (by norm_num) hi)
    rw [Nat.testBit_lt_two_pow h8]
    simp

/-- Two's-complement bitwise `& 7` on an integer is the nonnegative
remainder mod 8. -/
theorem int_land_seven (n : ℤ) : Int.land n 7 = n % 8 := by
  cases n with
  | ofNat m =>
      have h1 : Int.land (Int.ofNat m) 7 = ((m &&& 7 : ℕ) : ℤ) := rfl
      have h2 : m &&& 7 = m % 8 := by
        have h := Nat.and_pow_two_sub_one_eq_mod m 3
        norm_num at h
        exact h
      rw [h1, h2]
      simp [Int.ofNat_eq_coe]
  | negSucc m =>
      have h1 : Int.land (Int.negSucc m) 7 = ((Nat.ldiff 7 m : ℕ) : ℤ) := rfl
      rw [h1, ldiff_seven]
      have hm : m % 8 < 8 := Nat.mod_lt _ (by norm_num)
      have h : Int.negSucc m = -(m : ℤ) - 1 := by
        simp [Int.negSucc_eq]
        ring
      rw [h]
      omega

/-- At the footprint center the Gaussian factor is `exp 0 = 1`. -/
theorem splatFragmentAlpha_origin (a : ℝ) : splatFragmentAlpha (0, 0) a = a := by
  simp [splatFragmentAlpha, kBoundsRadiusSquared, kBoundsRadius]

/-- Evaluation of the dither threshold at screen position (0,0) and splat
id 0: the Bayer entry is 0 and the temporal offset is 0. -/
theorem bayerDither_zero : bayerDither (0, 0) 0 = 0 := by
  have hland : Int.land 0 7 = 0 := rfl
  simp only [bayerDither, Int.floor_zero, hland, Nat.cast_zero, CharP.cast_eq_zero]
  norm_num [bayerMatrix, Int.fract_zero]

/-- The debug-overlay block is the identity when no debug flag is set. -/
theorem applyDebugOverlays_none (lodBand : ℤ) (rgb : Half3) (alpha : ℝ) :
    applyDebugOverlays 0 lodBand rgb alpha = rgb := by
  simp [applyDebugOverlays, DebugFlagLodTint, DebugFlagOverdraw]

/-- Decoding one masked 10-bit field: the result is `k / 511` for the
unique two's-complement value `k ∈ [-512, 511]` congruent to the field
mod 1024. -/
theorem snormDecode (m : ℕ) (hm : m ≤ 1023) :
    ∃ k : ℤ, -512 ≤ k ∧ k ≤ 511 ∧ k % 1024 = (m : ℤ) ∧
      (if 512 ≤ (m : ℤ) then (((m : ℤ) : ℝ) - 1024) / 511 else ((m : ℤ) : ℝ) / 511) =
        (k : ℝ) / 511 := by
  by_cases h : 512 ≤ (m : ℤ)
  · refine ⟨(m : ℤ) - 1024, by omega, by omega, by omega, ?_⟩
    rw [if_pos h]
    push_cast
    ring
  · exact ⟨(m : ℤ), by omega, by omega, by omega, by rw [if_neg h]⟩

/-- Range of a decoded two's-complement channel value. -/
theorem snormDecode_bounds (k : ℤ) (h1 : -512 ≤ k) (h2 : k ≤ 511) :
    -512 / 511 ≤ (k : ℝ) / 511 ∧ (k : ℝ) / 511 ≤ 1 := by
  constructor
  · rw [div_le_div_iff_of_pos_right (by norm_num : (0 : ℝ) < 511)]
    exact_mod_cast h1
  · rw [div_le_one (by norm_num : (0 : ℝ) < 511)]
    exact_mod_cast h2

/-- Evaluation of the decoder on the word whose R field holds the
two's-complement code 512 (= -512). -/
theorem unpack512_r : (unpackSnorm10a2ToHalf 512).r = -512 / 511 := by
  have hf : (512 &&& 0x3FF : ℕ) = 512 := by decide
  simp only [unpackSnorm10a2ToHalf, hf]
  rw [if_pos (by norm_num)]
  norm_num

/-- The encoder of one RGB channel produces a field below 1024, the
decoder maps it back to `round (c * 511) / 511`, and that value is within
1/511 of the original channel value. -/
theorem packSnorm10_decode (c : ℝ) (h1 : -1 ≤ c) (h2 : c ≤ 1) :
    packSnorm10 c ≤ 1023 ∧
    (if 512 ≤ ((packSnorm10 c : ℕ) : ℤ) then
        ((((packSnorm10 c : ℕ) : ℤ) : ℝ) - 1024) / 511
      else (((packSnorm10 c : ℕ) : ℤ) : ℝ) / 511) =
      ((⌊c * 511 + 1 / 2⌋ : ℤ) : ℝ) / 511 ∧
    |((⌊c * 511 + 1 / 2⌋ : ℤ) : ℝ) / 511 - c| ≤ 1 / 511 := by
  have hn1 : -511 ≤ ⌊c * 511 + 1 / 2⌋ := by
    apply Int.le_floor.mpr
    push_cast
    linarith
  have hn2 : ⌊c * 511 + 1 / 2⌋ ≤ 511 := by
    have h := Int.floor_lt.mpr (show c * 511 + 1 / 2 < ((512 : ℤ) : ℝ) by push_cast; linarith)
    omega
  have hfl : (⌊c * 511 + 1 / 2⌋ : ℝ) ≤ c * 511 + 1 / 2 := Int.floor_le _
  have hfu : c * 511 + 1 / 2 < (⌊c * 511 + 1 / 2⌋ : ℝ) + 1 := Int.lt_floor_add_one _
  refine ⟨?_, ?_, ?_⟩
  · simp only [packSnorm10]
    split_ifs <;> omega
  · simp only [packSnorm10]
    by_cases hneg : ⌊c * 511 + 1 / 2⌋ < 0
    · have hf : (((if ⌊c * 511 + 1 / 2⌋ < 0 then ⌊c * 511 + 1 / 2⌋ + 1024
          else ⌊c * 511 + 1 / 2⌋).toNat : ℕ) : ℤ) = ⌊c * 511 + 1 / 2⌋ + 1024 := by
        rw [if_pos hneg]
        omega
      rw [hf, if_pos (by omega)]
      push_cast
      ring
    · have hf : (((if ⌊c * 511 + 1 / 2⌋ < 0 then ⌊c * 511 + 1 / 2⌋ + 1024
          else ⌊c * 511 + 1 / 2⌋).toNat : ℕ) : ℤ) = ⌊c * 511 + 1 / 2⌋ := by
        rw [if_neg hneg]
        omega
      rw [hf, if_neg (by omega)]
  · have key : (⌊c * 511 + 1 / 2⌋ : ℝ) / 511 - c = ((⌊c * 511 + 1 / 2⌋ : ℝ) - c * 511) / 511 := by
      ring
    rw [key, abs_div, show |(511 : ℝ)| = 511 from by norm_num,
      div_le_div_iff_of_pos_right (by norm_num : (0 : ℝ) < 511), abs_le]
    constructor <;> linarith

/-- The encoder of the alpha channel produces a 2-bit code, and decoding
it (division by 3) is within 1/3 of the original alpha. -/
theorem packUnorm2_decode (a : ℝ) (h1 : 0 ≤ a) (h2 : a ≤ 1) :
    packUnorm2 a ≤ 3 ∧
    |(((packUnorm2 a : ℕ) : ℤ) : ℝ) / 3 - a| ≤ 1 / 3 := by
  have hn1 : 0 ≤ ⌊a * 3 + 1 / 2⌋ := by
    apply Int.le_floor.mpr
    push_cast
    linarith
  have hn2 : ⌊a * 3 + 1 / 2⌋ ≤ 3 := by
    have h := Int.floor_lt.mpr (show a * 3 + 1 / 2 < ((4 : ℤ) : ℝ) by push_cast; linarith)
    omega
  have hfl : (⌊a * 3 + 1 / 2⌋ : ℝ) ≤ a * 3 + 1 / 2 := Int.floor_le _
  have hfu : a * 3 + 1 / 2 < (⌊a * 3 + 1 / 2⌋ : ℝ) + 1 := Int.lt_floor_add_one _
  refine ⟨by simp only [packUnorm2]; omega, ?_⟩
  have hf : (((packUnorm2 a : ℕ) : ℤ) : ℝ) = (⌊a * 3 + 1 / 2⌋ : ℝ) := by
    simp only [packUnorm2]
    rw [Int.toNat_of_nonneg hn1]
  rw [hf]
  have key : (⌊a * 3 + 1 / 2⌋ : ℝ) / 3 - a = ((⌊a * 3 + 1 / 2⌋ : ℝ) - a * 3) / 3 := by
    ring
  rw [key, abs_div, show |(3 : ℝ)| = 3 from by norm_num,
    div_le_div_iff_of_pos_right (by norm_num : (0 : ℝ) < 3), abs_le]
  constructor <;> linarith

/-- Extraction of the four fields from an assembled snorm10a2 word. -/
theorem pack_fields (r g b a : ℕ) (hr : r ≤ 1023) (hg : g ≤ 1023)
    (hb : b ≤ 1023) (ha : a ≤ 3) :
    ((r + 2 ^ 10 * g + 2 ^ 20 * b + 2 ^ 30 * a) &&& 0x3FF) = r ∧
    (((r + 2 ^ 10 * g + 2 ^ 20 * b + 2 ^ 30 * a) >>> 10) &&& 0x3FF) = g ∧
    (((r + 2 ^ 10 * g + 2 ^ 20 * b + 2 ^ 30 * a) >>> 20) &&& 0x3FF) = b ∧
    (((r + 2 ^ 10 * g + 2 ^ 20 * b + 2 ^ 30 * a) >>> 30) &&& 0x3) = a := by
  have e1 : ∀ x : ℕ, x &&& 0x3FF = x % 1024 := fun x => by
    have h := Nat.and_pow_two_sub_one_eq_mod x 10
    norm_num at h
    exact h
  have e2 : ∀ x : ℕ, x &&& 0x3 = x % 4 := fun x => by
    have h := Nat.and_pow_two_sub_one_eq_mod x 2
    norm_num at h
    exact h
  simp only [e1, e2, Nat.shiftRight_eq_div_pow]
  norm_num
  omega

/-! ### Claims -/

/-- C1: for every local coordinate `r` and opacity `a`, `splatFragmentAlpha`
equals `exp (-0.5 * |r|^2) * a` when `|r|^2 ≤ 9` and is exactly 0 when
`|r|^2 > 9`; at the origin it returns `a` unchanged. -/
theorem splatFragmentAlpha_spec (r : ℝ × ℝ) (a : ℝ) :
    (r.1 * r.1 + r.2 * r.2 ≤ 9 →
      splatFragmentAlpha r a = Real.exp (-0.5 * (r.1 * r.1 + r.2 * r.2)) * a) ∧
    (9 < r.1 * r.1 + r.2 * r.2 → splatFragmentAlpha r a = 0) ∧
    splatFragmentAlpha (0, 0) a = a := by
  have h9 : kBoundsRadiusSquared = 9 := by norm_num [kBoundsRadiusSquared, kBoundsRadius]
  refine ⟨?_, ?_, splatFragmentAlpha_origin a⟩
  · intro h
    simp only [splatFragmentAlpha, h9]
    rw [if_neg (by push_neg; linarith)]
    have harg : (0.5 : ℝ) * -(r.1 * r.1 + r.2 * r.2) = -0.5 * (r.1 * r.1 + r.2 * r.2) := by
      ring
    rw [harg]
  · intro h
    simp only [splatFragmentAlpha, h9]
    rw [if_pos (by linarith)]

/-- Witness for C1 at the concrete points (1,2) (inside the bounds radius)
and (2,3) (outside it). -/
theorem splatFragmentAlpha_spec_witness :
    splatFragmentAlpha (1, 2) 1 = Real.exp (-0.5 * (1 * 1 + 2 * 2)) * 1 ∧
    splatFragmentAlpha (2, 3) 1 = 0 :=
  ⟨(splatFragmentAlpha_spec (1, 2) 1).1 (by norm_num),
   (splatFragmentAlpha_spec (2, 3) 1).2.1 (by norm_num)⟩

/-- C5: in continuous mode the output is the premultiplied color
`(alpha * rgb, alpha)`, where `alpha` is the base alpha from the local
coordinate and splat opacity and `rgb` is the (possibly debug-overlaid)
color. -/
theorem shadeSplat_premultiplied (inp : FragmentIn) :
    (shadeSplat inp).a = splatFragmentAlpha inp.relativePosition inp.color.a ∧
    (shadeSplat inp).r = (shadeSplat inp).a *
      (applyDebugOverlays inp.debugFlags inp.lodBand
        ⟨inp.color.r, inp.color.g, inp.color.b⟩ (shadeSplat inp).a).r ∧
    (shadeSplat inp).g = (shadeSplat inp).a *
      (applyDebugOverlays inp.debugFlags inp.lodBand
        ⟨inp.color.r, inp.color.g, inp.color.b⟩ (shadeSplat inp).a).g ∧
    (shadeSplat inp).b = (shadeSplat inp).a *
      (applyDebugOverlays inp.debugFlags inp.lodBand
        ⟨inp.color.r, inp.color.g, inp.color.b⟩ (shadeSplat inp).a).b :=
  ⟨rfl, rfl, rfl, rfl⟩

/-- C8: dithered-mode shading is a pure function of its inputs — two
evaluations at the same `(screenPos, splatId)` pair and the same fragment
input produce the same threshold and the same discard/keep decision. -/
theorem shadeSplatDithered_deterministic (inp₁ inp₂ : FragmentIn)
    (sp₁ sp₂ : ℝ × ℝ) (hsp : sp₁ = sp₂) (hid : inp₁.splatID = inp₂.splatID)
    (hin : inp₁ = inp₂) :
    bayerDither sp₁ inp₁.splatID = bayerDither sp₂ inp₂.splatID ∧
    shadeSplatDithered inp₁ sp₁ = shadeSplatDithered inp₂ sp₂ := by
  subst hsp hin
  exact ⟨rfl, rfl⟩

/-- Witness for C8 at a concrete fragment and screen position. -/
theorem shadeSplatDithered_deterministic_witness :
    bayerDither (1, 2) 5 = bayerDither (1, 2) 5 ∧
    shadeSplatDithered ⟨(0, 0), ⟨0, 0, 0, 1⟩, 0, 0, 5⟩ (1, 2) =
      shadeSplatDithered ⟨(0, 0), ⟨0, 0, 0, 1⟩, 0, 0, 5⟩ (1, 2) :=
  shadeSplatDithered_deterministic ⟨(0, 0), ⟨0, 0, 0, 1⟩, 0, 0, 5⟩
    ⟨(0, 0), ⟨0, 0, 0, 1⟩, 0, 0, 5⟩ (1, 2) (1, 2) rfl rfl rfl

/-- C2: in dithered mode the per-fragment threshold is the Bayer matrix
entry at `screenPosition mod 8` plus the temporal offset
`fract (splatId * 0.013) * 0.1`, wrapped into [0,1); the fragment is
discarded iff its alpha is strictly below the threshold, and otherwise
written fully opaque (output alpha 1) with the shaded rgb. -/
theorem shadeSplatDithered_spec (inp : FragmentIn) (screenPos : ℝ × ℝ) :
    0 ≤ bayerDither screenPos inp.splatID ∧
    bayerDither screenPos inp.splatID < 1 ∧
    bayerDither screenPos inp.splatID =
      Int.fract (bayerMatrix.getD
          ((⌊screenPos.2⌋ % 8).toNat * 8 + (⌊screenPos.1⌋ % 8).toNat) 0 +
        Int.fract ((inp.splatID : ℝ) * 0.013) * 0.1) ∧
    (shadeSplatDithered inp screenPos = none ↔
      splatFragmentAlpha inp.relativePosition inp.color.a <
        bayerDither screenPos inp.splatID) ∧
    (bayerDither screenPos inp.splatID ≤
        splatFragmentAlpha inp.relativePosition inp.color.a →
      shadeSplatDithered inp screenPos =
        some ⟨(applyDebugOverlays inp.debugFlags inp.lodBand
                ⟨inp.color.r, inp.color.g, inp.color.b⟩
                (splatFragmentAlpha inp.relativePosition inp.color.a)).r,
              (applyDebugOverlays inp.debugFlags inp.lodBand
                ⟨inp.color.r, inp.color.g, inp.color.b⟩
                (splatFragmentAlpha inp.relativePosition inp.color.a)).g,
              (applyDebugOverlays inp.debugFlags inp.lodBand
                ⟨inp.color.r, inp.color.g, inp.color.b⟩
                (splatFragmentAlpha inp.relativePosition inp.color.a)).b, 1⟩) := by
  refine ⟨?_, ?_, ?_, ?_, ?_⟩
  · simp only [bayerDither]
    exact Int.fract_nonneg _
  · simp only [bayerDither]
    exact Int.fract_lt_one _
  · simp only [bayerDither, int_land_seven]
    have hx : 0 ≤ ⌊screenPos.1⌋ % 8 := Int.emod_nonneg _ (by norm_num)
    have hy : 0 ≤ ⌊screenPos.2⌋ % 8 := Int.emod_nonneg _ (by norm_num)
    have hidx : (⌊screenPos.2⌋ % 8 * 8 + ⌊screenPos.1⌋ % 8).toNat =
        (⌊screenPos.2⌋ % 8).toNat * 8 + (⌊screenPos.1⌋ % 8).toNat := by
      omega
    rw [hidx]
  · by_cases hd : splatFragmentAlpha inp.relativePosition inp.color.a <
        bayerDither screenPos inp.splatID
    · simp [shadeSplatDithered, hd]
    · simp [shadeSplatDithered, hd]
  · intro hle
    have hd : ¬ splatFragmentAlpha inp.relativePosition inp.color.a <
        bayerDither screenPos inp.splatID := not_lt.2 hle
    simp [shadeSplatDithered, hd]

/-- Witness for C2 at screen position (0,0), splat id 0 and a centered
fully-opaque fragment: the threshold is 0, so the fragment is kept and
written opaque. -/
theorem shadeSplatDithered_spec_witness :
    shadeSplatDithered ⟨(0, 0), ⟨0, 0, 0, 1⟩, 0, 0, 0⟩ (0, 0) =
      some ⟨0, 0, 0, 1⟩ := by
  have h := (shadeSplatDithered_spec ⟨(0, 0), ⟨0, 0, 0, 1⟩, 0, 0, 0⟩ (0, 0)).2.2.2.2
    (by rw [bayerDither_zero, splatFragmentAlpha_origin]; norm_num)
  rw [h]
  rw [show applyDebugOverlays 0 0 ⟨0, 0, 0⟩ (splatFragmentAlpha (0, 0) 1) =
    ⟨0, 0, 0⟩ from applyDebugOverlays_none 0 ⟨0, 0, 0⟩ _]

/-- C9: when both overlay bits are set, the overdraw overlay takes
precedence over the LOD tint, in both shading modes: the overlaid rgb is
the grayscale `clamp (alpha + 0.05) 0.05 1`, so `shadeSplat` outputs its
premultiplied form and a kept dithered fragment carries it verbatim. -/
theorem overdraw_precedence (inp : FragmentIn) (screenPos : ℝ × ℝ) (α : ℝ)
    (halpha : splatFragmentAlpha inp.relativePosition inp.color.a = α)
    (_hlod : inp.debugFlags &&& DebugFlagLodTint ≠ 0)
    (hover : inp.debugFlags &&& DebugFlagOverdraw ≠ 0) :
    applyDebugOverlays inp.debugFlags inp.lodBand
        ⟨inp.color.r, inp.color.g, inp.color.b⟩ α =
      ⟨min (max (α + 0.05) 0.05) 1, min (max (α + 0.05) 0.05) 1,
        min (max (α + 0.05) 0.05) 1⟩ ∧
    shadeSplat inp =
      ⟨α * min (max (α + 0.05) 0.05) 1, α * min (max (α + 0.05) 0.05) 1,
        α * min (max (α + 0.05) 0.05) 1, α⟩ ∧
    (∀ out : Half4, shadeSplatDithered inp screenPos = some out →
      out = ⟨min (max (α + 0.05) 0.05) 1, min (max (α + 0.05) 0.05) 1,
        min (max (α + 0.05) 0.05) 1, 1⟩) := by
  have h1 : applyDebugOverlays inp.debugFlags inp.lodBand
      ⟨inp.color.r, inp.color.g, inp.color.b⟩ α =
      ⟨min (max (α + 0.05) 0.05) 1, min (max (α + 0.05) 0.05) 1,
        min (max (α + 0.05) 0.05) 1⟩ := by
    simp only [applyDebugOverlays]
    rw [if_pos hover]
  refine ⟨h1, ?_, ?_⟩
  · simp only [shadeSplat, halpha, h1]
  · intro out hout
    by_cases hd : splatFragmentAlpha inp.relativePosition inp.color.a <
        bayerDither screenPos inp.splatID
    · simp [shadeSplatDithered, hd] at hout
    · simp only [shadeSplatDithered, if_neg hd, Option.some_inj] at hout
      rw [← hout, halpha, h1]

/-- Witness for C9 at a concrete fragment with both overlay bits set
(debug flags 3) and alpha 1: the clamp evaluates to 1. -/
theorem overdraw_precedence_witness :
    applyDebugOverlays 3 0 ⟨0, 0, 0⟩ 1 =
      ⟨min (max ((1 : ℝ) + 0.05) 0.05) 1, min (max ((1 : ℝ) + 0.05) 0.05) 1,
        min (max ((1 : ℝ) + 0.05) 0.05) 1⟩ ∧
    shadeSplat ⟨(0, 0), ⟨0, 0, 0, 1⟩, 0, 3, 0⟩ =
      ⟨1 * min (max ((1 : ℝ) + 0.05) 0.05) 1, 1 * min (max ((1 : ℝ) + 0.05) 0.05) 1,
        1 * min (max ((1 : ℝ) + 0.05) 0.05) 1, 1⟩ ∧
    (∀ out : Half4, shadeSplatDithered ⟨(0, 0), ⟨0, 0, 0, 1⟩, 0, 3, 0⟩ (0, 0) = some out →
      out = ⟨min (max ((1 : ℝ) + 0.05) 0.05) 1, min (max ((1 : ℝ) + 0.05) 0.05) 1,
        min (max ((1 : ℝ) + 0.05) 0.05) 1, 1⟩) :=
  overdraw_precedence ⟨(0, 0), ⟨0, 0, 0, 1⟩, 0, 3, 0⟩ (0, 0) 1
    (splatFragmentAlpha_origin 1) (by decide) (by decide)

/-- C6 counterexample: on the fragment with local coordinate (0,0),
opacity 0.5 and only the overdraw bit set, the computed alpha is 0.5, but
the `shadeSplat` output rgb components are the premultiplied
`0.5 * 0.55 = 11/40`, not the grayscale `0.55 = 11/20` itself. -/
theorem shadeSplat_overdraw_premultiplied_cx :
    splatFragmentAlpha (0, 0) (1 / 2) = 1 / 2 ∧
    shadeSplat ⟨(0, 0), ⟨0, 0, 0, 1 / 2⟩, 0, 1, 0⟩ =
      ⟨11 / 40, 11 / 40, 11 / 40, 1 / 2⟩ ∧
    (11 / 40 : ℝ) ≠ 11 / 20 := by
  refine ⟨splatFragmentAlpha_origin (1 / 2), ?_, by norm_num⟩
  have hc : min (max ((1 : ℝ) / 2 + 0.05) 0.05) 1 = 11 / 20 := by
    rw [max_eq_left (by norm_num), min_eq_left (by norm_num)]
    norm_num
  have h1 : applyDebugOverlays 1 0 ⟨0, 0, 0⟩ (1 / 2) =
      ⟨11 / 20, 11 / 20, 11 / 20⟩ := by
    simp only [applyDebugOverlays]
    rw [if_pos (by decide), hc]
  simp only [shadeSplat, splatFragmentAlpha_origin, h1]
  norm_num

/-- C6 (amended): for a fragment whose computed alpha is 0.5 with only the
overdraw bit set, the overlaid shading rgb is the grayscale
`clamp (0.5 + 0.05) 0.05 1 = 0.55` and the alpha value is unchanged at
0.5; `shadeSplat` then outputs this color premultiplied:
`(0.275, 0.275, 0.275, 0.5)`. -/
theorem shadeSplat_overdraw_half_alpha (inp : FragmentIn)
    (hflags : inp.debugFlags = 1)
    (halpha : splatFragmentAlpha inp.relativePosition inp.color.a = 1 / 2) :
    applyDebugOverlays inp.debugFlags inp.lodBand
        ⟨inp.color.r, inp.color.g, inp.color.b⟩
        (splatFragmentAlpha inp.relativePosition inp.color.a) =
      ⟨11 / 20, 11 / 20, 11 / 20⟩ ∧
    shadeSplat inp = ⟨11 / 40, 11 / 40, 11 / 40, 1 / 2⟩ := by
  have hc : min (max ((1 : ℝ) / 2 + 0.05) 0.05) 1 = 11 / 20 := by
    rw [max_eq_left (by norm_num), min_eq_left (by norm_num)]
    norm_num
  have h1 : applyDebugOverlays inp.debugFlags inp.lodBand
      ⟨inp.color.r, inp.color.g, inp.color.b⟩
      (splatFragmentAlpha inp.relativePosition inp.color.a) =
      ⟨11 / 20, 11 / 20, 11 / 20⟩ := by
    rw [halpha, hflags]
    simp only [applyDebugOverlays]
    rw [if_pos (by decide), hc]
  refine ⟨h1, ?_⟩
  have h2 := h1
  rw [halpha] at h2
  simp only [shadeSplat, halpha, h2]
  norm_num

/-- Witness for C6 (amended) at the concrete fragment with local
coordinate (0,0), opacity 0.5, debug flags 1. -/
theorem shadeSplat_overdraw_half_alpha_witness :
    applyDebugOverlays 1 0 ⟨0, 0, 0⟩ (splatFragmentAlpha (0, 0) (1 / 2)) =
      ⟨11 / 20, 11 / 20, 11 / 20⟩ ∧
    shadeSplat ⟨(0, 0), ⟨0, 0, 0, 1 / 2⟩, 0, 1, 0⟩ =
      ⟨11 / 40, 11 / 40, 11 / 40, 1 / 2⟩ :=
  shadeSplat_overdraw_half_alpha ⟨(0, 0), ⟨0, 0, 0, 1 / 2⟩, 0, 1, 0⟩ rfl
    (splatFragmentAlpha_origin (1 / 2))

/-- C4: `getSplatColor` decodes the packed word exactly when both
build-time switches are true, and reads the direct color buffer in every
other combination. -/
theorem getSplatColor_spec (u h : Bool) (i : ℕ) (splats : ℕ → Splat)
    (packedColors : ℕ → PackedColor) :
    (u = true → h = true →
      getSplatColor u h i splats packedColors =
        unpackSnorm10a2ToHalf (packedColors i).packedColor) ∧
    (¬(u = true ∧ h = true) →
      getSplatColor u h i splats packedColors = (splats i).color) := by
  constructor
  · intro hu hh
    simp [getSplatColor, hu, hh]
  · intro hn
    have hf : (u && h) = false := by
      cases u <;> cases h <;> simp_all
    simp [getSplatColor, hf]

/-- A concrete splat buffer used by the C4 witness. -/
noncomputable def splatBufferW : ℕ → Splat :=
  fun _ => ⟨(0, 0, 0), ⟨1, 2, 3, 4⟩, (0, 0, 0), (0, 0, 0)⟩

/-- A concrete packed-color buffer used by the C4 witness. -/
def packedBufferW : ℕ → PackedColor :=
  fun _ => ⟨512⟩

/-- Witness for C4: both switches on selects the packed decode; switching
one off selects the direct color. -/
theorem getSplatColor_spec_witness :
    getSplatColor true true 0 splatBufferW packedBufferW =
      unpackSnorm10a2ToHalf 512 ∧
    getSplatColor true false 0 splatBufferW packedBufferW = ⟨1, 2, 3, 4⟩ :=
  ⟨(getSplatColor_spec true true 0 splatBufferW packedBufferW).1 rfl rfl,
   (getSplatColor_spec true false 0 splatBufferW packedBufferW).2 (by simp)⟩

/-- C7: encoding a color (RGB in [-1,1], alpha in [0,1]) with the packed
10-10-10-2 scheme and decoding it with `unpackSnorm10a2ToHalf` reproduces
the original values within quantization error (at most 1/511 per RGB
channel, at most 1/3 for alpha); moreover every alpha code `a ∈ {0,1,2,3}`
decodes exactly to `a / 3`. -/
theorem packSnorm10a2_roundTrip (c : Half4) (hr1 : -1 ≤ c.r) (hr2 : c.r ≤ 1)
    (hg1 : -1 ≤ c.g) (hg2 : c.g ≤ 1) (hb1 : -1 ≤ c.b) (hb2 : c.b ≤ 1)
    (ha1 : 0 ≤ c.a) (ha2 : c.a ≤ 1) :
    |(unpackSnorm10a2ToHalf (packSnorm10a2 c)).r - c.r| ≤ 1 / 511 ∧
    |(unpackSnorm10a2ToHalf (packSnorm10a2 c)).g - c.g| ≤ 1 / 511 ∧
    |(unpackSnorm10a2ToHalf (packSnorm10a2 c)).b - c.b| ≤ 1 / 511 ∧
    |(unpackSnorm10a2ToHalf (packSnorm10a2 c)).a - c.a| ≤ 1 / 3 ∧
    ∀ code : ℕ, code ≤ 3 →
      (unpackSnorm10a2ToHalf (code <<< 30)).a = ((code : ℕ) : ℝ) / 3 := by
  obtain ⟨hRle, hRdec, hRerr⟩ := packSnorm10_decode c.r hr1 hr2
  obtain ⟨hGle, hGdec, hGerr⟩ := packSnorm10_decode c.g hg1 hg2
  obtain ⟨hBle, hBdec, hBerr⟩ := packSnorm10_decode c.b hb1 hb2
  obtain ⟨hAle, hAerr⟩ := packUnorm2_decode c.a ha1 ha2
  obtain ⟨e1, e2, e3, e4⟩ := pack_fields _ _ _ _ hRle hGle hBle hAle
  have hw : packSnorm10a2 c =
      packSnorm10 c.r + 2 ^ 10 * packSnorm10 c.g + 2 ^ 20 * packSnorm10 c.b +
        2 ^ 30 * packUnorm2 c.a := rfl
  have hrc : (unpackSnorm10a2ToHalf (packSnorm10a2 c)).r =
      ((⌊c.r * 511 + 1 / 2⌋ : ℤ) : ℝ) / 511 := by
    rw [hw]
    simp only [unpackSnorm10a2ToHalf]
    rw [e1]
    exact hRdec
  have hgc : (unpackSnorm10a2ToHalf (packSnorm10a2 c)).g =
      ((⌊c.g * 511 + 1 / 2⌋ : ℤ) : ℝ) / 511 := by
    rw [hw]
    simp only [unpackSnorm10a2ToHalf]
    rw [e2]
    exact hGdec
  have hbc : (unpackSnorm10a2ToHalf (packSnorm10a2 c)).b =
      ((⌊c.b * 511 + 1 / 2⌋ : ℤ) : ℝ) / 511 := by
    rw [hw]
    simp only [unpackSnorm10a2ToHalf]
    rw [e3]
    exact hBdec
  have hac : (unpackSnorm10a2ToHalf (packSnorm10a2 c)).a =
      (((packUnorm2 c.a : ℕ) : ℤ) : ℝ) / 3 := by
    rw [hw]
    simp only [unpackSnorm10a2ToHalf]
    rw [e4]
  refine ⟨by rw [hrc]; exact hRerr, by rw [hgc]; exact hGerr,
    by rw [hbc]; exact hBerr, by rw [hac]; exact hAerr, ?_⟩
  intro code hcode
  obtain ⟨f1, f2, f3, f4⟩ :=
    pack_fields 0 0 0 code (by norm_num) (by norm_num) (by norm_num) hcode
  have hsh : code <<< 30 = 0 + 2 ^ 10 * 0 + 2 ^ 20 * 0 + 2 ^ 30 * code := by
    rw [Nat.shiftLeft_eq]
    ring
  have h : (unpackSnorm10a2ToHalf (code <<< 30)).a = (((code : ℕ) : ℤ) : ℝ) / 3 := by
    rw [hsh]
    simp only [unpackSnorm10a2ToHalf]
    rw [f4]
  rw [h]
  push_cast
  ring

/-- Witness for C7 at the concrete color (1/2, -1/2, 0, 1) and the alpha
code 2. -/
theorem packSnorm10a2_roundTrip_witness :
    |(unpackSnorm10a2ToHalf (packSnorm10a2 ⟨1 / 2, -(1 / 2), 0, 1⟩)).r - 1 / 2| ≤ 1 / 511 ∧
    (unpackSnorm10a2ToHalf (2 <<< 30)).a = ((2 : ℕ) : ℝ) / 3 := by
  have h := packSnorm10a2_roundTrip ⟨1 / 2, -(1 / 2), 0, 1⟩ (by norm_num) (by norm_num)
    (by norm_num) (by norm_num) (by norm_num) (by norm_num) (by norm_num) (by norm_num)
  exact ⟨h.1, h.2.2.2.2 2 (by norm_num)⟩

/-- C3 counterexample: the decoder does not land in [-1, 1] — the packed
word 512 (R field = two's-complement code -512) decodes its R component to
-512/511, which is strictly below -1. -/
theorem unpackSnorm10a2ToHalf_not_unit_range :
    (unpackSnorm10a2ToHalf 512).r = -512 / 511 ∧
    ¬ (-1 ≤ (unpackSnorm10a2ToHalf 512).r) := by
  refine ⟨unpack512_r, ?_⟩
  rw [unpack512_r]
  norm_num

/-- C3 (amended): the decoder extracts 10-bit fields at bit offsets 0, 10,
20 and the 2-bit alpha field at offset 30, interprets each 10-bit field as
the two's-complement signed integer in [-512, 511] congruent to it
mod 1024, and divides it by 511 (so codes -511..511 land in [-1, 1] while
code -512 decodes to -512/511); the 2-bit unsigned alpha field is divided
by 3. -/
theorem unpackSnorm10a2ToHalf_fields (packed : ℕ) :
    ∃ ri gi bi : ℤ,
      (-512 ≤ ri ∧ ri ≤ 511 ∧ ri % 1024 = ((packed &&& 0x3FF : ℕ) : ℤ)) ∧
      (-512 ≤ gi ∧ gi ≤ 511 ∧ gi % 1024 = (((packed >>> 10) &&& 0x3FF : ℕ) : ℤ)) ∧
      (-512 ≤ bi ∧ bi ≤ 511 ∧ bi % 1024 = (((packed >>> 20) &&& 0x3FF : ℕ) : ℤ)) ∧
      ((packed >>> 30) &&& 0x3 : ℕ) ≤ 3 ∧
      unpackSnorm10a2ToHalf packed =
        ⟨(ri : ℝ) / 511, (gi : ℝ) / 511, (bi : ℝ) / 511,
          ((((packed >>> 30) &&& 0x3 : ℕ) : ℤ) : ℝ) / 3⟩ := by
  obtain ⟨ri, hr1, hr2, hr3, hr4⟩ :=
    snormDecode (packed &&& 0x3FF) Nat.and_le_right
  obtain ⟨gi, hg1, hg2, hg3, hg4⟩ :=
    snormDecode ((packed >>> 10) &&& 0x3FF) Nat.and_le_right
  obtain ⟨bi, hb1, hb2, hb3, hb4⟩ :=
    snormDecode ((packed >>> 20) &&& 0x3FF) Nat.and_le_right
  refine ⟨ri, gi, bi, ⟨hr1, hr2, hr3⟩, ⟨hg1, hg2, hg3⟩, ⟨hb1, hb2, hb3⟩,
    Nat.and_le_right, ?_⟩
  simp only [unpackSnorm10a2ToHalf]
  rw [hr4, hg4, hb4]

/-- C10: the decoder does not clamp — the R field code 512 decodes to
-512/511 < -1, and in general every decoded RGB component lies in
[-512/511, 1] (not [-1, 1]). -/
theorem unpackSnorm10a2ToHalf_range :
    (unpackSnorm10a2ToHalf 512).r = -512 / 511 ∧
    (-512 / 511 : ℝ) < -1 ∧
    ∀ packed : ℕ,
      (-512 / 511 ≤ (unpackSnorm10a2ToHalf packed).r ∧
        (unpackSnorm10a2ToHalf packed).r ≤ 1) ∧
      (-512 / 511 ≤ (unpackSnorm10a2ToHalf packed).g ∧
        (unpackSnorm10a2ToHalf packed).g ≤ 1) ∧
      (-512 / 511 ≤ (unpackSnorm10a2ToHalf packed).b ∧
        (unpackSnorm10a2ToHalf packed).b ≤ 1) := by
  refine ⟨unpack512_r, by norm_num, ?_⟩
  intro packed
  obtain ⟨ri, hr1, hr2, _, hr4⟩ :=
    snormDecode (packed &&& 0x3FF) Nat.and_le_right
  obtain ⟨gi, hg1, hg2, _, hg4⟩ :=
    snormDecode ((packed >>> 10) &&& 0x3FF) Nat.and_le_right
  obtain ⟨bi, hb1, hb2, _, hb4⟩ :=
    snormDecode ((packed >>> 20) &&& 0x3FF) Nat.and_le_right
  have hrc : (unpackSnorm10a2ToHalf packed).r = (ri : ℝ) / 511 := by
    simp only [unpackSnorm10a2ToHalf]
    rw [hr4]
  have hgc : (unpackSnorm10a2ToHalf packed).g = (gi : ℝ) / 511 := by
    simp only [unpackSnorm10a2ToHalf]
    rw [hg4]
  have hbc : (unpackSnorm10a2ToHalf packed).b = (bi : ℝ) / 511 := by
    simp only [unpackSnorm10a2ToHalf]
    rw [hb4]
  rw [hrc, hgc, hbc]
  exact ⟨snormDecode_bounds ri hr1 hr2, snormDecode_bounds gi hg1 hg2,
    snormDecode_bounds bi hb1 hb2⟩

end MetalSplatter
